import Mathlib

/-!
Shallow embedding of `src/logger.py`: a small logging utility with three
pluggable output backends (console, file, structured JSON store), a factory
`create_logger` mapping a name to a backend, and a `Logger` that formats
leveled messages and delegates them to its current backend.

Effects are modelled by threading an explicit `World` (clock stream, stdout
lines, the text file `app.log`, the structured file `logs.json`, and a trace
recording each invocation of a backend's `write`).  A Python exception that
propagates out of a call is modelled by the second component of the returned
pair being `some` error; the `World` component always reflects the state at
the raise point.
-/

namespace LoggerPy

/-- A calendar timestamp as Python's `datetime.datetime` exposes it. -/
structure DateTime where
  year : Nat
  month : Nat
  day : Nat
  hour : Nat
  minute : Nat
  second : Nat
  microsecond : Nat
deriving DecidableEq

/-- The decimal digit character of `n % 10`, as Python's zero-padded numeric
field formatting emits digits. -/
def digitChar (n : Nat) : Char := Char.ofNat (48 + n % 10)

/-- Two-digit zero-padded decimal field: `strftime`'s `%m %d %H %M %S`. -/
def pad2 (n : Nat) : List Char := [digitChar (n / 10), digitChar n]

/-- Four-digit zero-padded decimal field: `strftime`'s `%Y` on a datetime year. -/
def pad4 (n : Nat) : List Char :=
  [digitChar (n / 1000), digitChar (n / 100), digitChar (n / 10), digitChar n]

/-- Six-digit zero-padded microsecond field of `datetime.isoformat()`. -/
def pad6 (n : Nat) : List Char :=
  [digitChar (n / 100000), digitChar (n / 10000), digitChar (n / 1000),
   digitChar (n / 100), digitChar (n / 10), digitChar n]

/-- Python's `dt.strftime("%Y-%m-%d %H:%M:%S")` (used at logger.py:86). -/
def DateTime.strftimeYmdHMS (dt : DateTime) : String :=
  ⟨pad4 dt.year ++ ['-'] ++ pad2 dt.month ++ ['-'] ++ pad2 dt.day ++ [' '] ++
   pad2 dt.hour ++ [':'] ++ pad2 dt.minute ++ [':'] ++ pad2 dt.second⟩

/-- Python's `dt.isoformat()` (used at logger.py:38): ISO-8601, with a
`.ffffff` microsecond suffix exactly when the microsecond field is nonzero. -/
def DateTime.isoformat (dt : DateTime) : String :=
  ⟨pad4 dt.year ++ ['-'] ++ pad2 dt.month ++ ['-'] ++ pad2 dt.day ++ ['T'] ++
   pad2 dt.hour ++ [':'] ++ pad2 dt.minute ++ [':'] ++ pad2 dt.second ++
   (if dt.microsecond = 0 then [] else ['.'] ++ pad6 dt.microsecond)⟩

/-- One persisted structured log record: the dict literal built in
`JSONLogger.write` (logger.py:37-40). -/
structure Entry where
  timestamp : String
  message : String
deriving DecidableEq

/-- Contents of the structured log file `logs.json` as `json.load` sees them:
either a parseable array of entries, or text that raises on parsing. -/
inductive JsonContent where
  | entries (logs : List Entry)
  | malformed
deriving DecidableEq

/-- The Python exceptions this program raises or meets: the factory's
`ValueError` (logger.py:68) and `json.JSONDecodeError` from `json.load` on
malformed content (logger.py:45). -/
inductive PyError where
  | valueError (msg : String)
  | jsonDecodeError
deriving DecidableEq

/-- The three stateless backend variants of logger.py. -/
inductive LogStrategy where
  | ConsoleLogger
  | FileLogger
  | JSONLogger
deriving DecidableEq

/-- The ambient state threaded through every effectful call.  `clock` is the
stream of values `datetime.now()` returns; `tick` counts how many reads have
happened.  `appLog` and `logsJson` are the two destination files (`none` means
the file does not exist).  `trace` records each invocation of a backend's
`write` method, in order, with the backend invoked and the text passed. -/
structure World where
  clock : Nat → DateTime
  tick : Nat
  stdout : List String
  appLog : Option String
  logsJson : Option JsonContent
  trace : List (LogStrategy × String)

/-- Python's `datetime.now()`: the clock value at the current tick, and the
world with the tick advanced. -/
def World.now (w : World) : DateTime × World :=
  (w.clock w.tick, { w with tick := w.tick + 1 })

/-- The `try: json.load ... except FileNotFoundError: logs = []` step of
`JSONLogger.write` (logger.py:43-47): an absent file yields the empty list,
a parseable file yields its entries, malformed content raises. -/
def loadedLogs (w : World) : Except PyError (List Entry) :=
  match w.logsJson with
  | none => Except.ok []
  | some (JsonContent.entries logs) => Except.ok logs
  | some JsonContent.malformed => Except.error PyError.jsonDecodeError

/-- The `write` method of each strategy (logger.py:22-23, 28-30, 35-52).
Every call is recorded in the trace.  Console appends a line to stdout; File
appends `message + "\n"` to `app.log` (creating it when absent); JSON builds
an entry from a fresh clock read, loads the existing array (see
`loadedLogs`), appends the entry and writes the whole array back. -/
def LogStrategy.write (self : LogStrategy) (message : String) (w : World) :
    World × Option PyError :=
  let w := { w with trace := w.trace ++ [(self, message)] }
  match self with
  | LogStrategy.ConsoleLogger => ({ w with stdout := w.stdout ++ [message] }, none)
  | LogStrategy.FileLogger =>
      ({ w with appLog := some (w.appLog.getD "" ++ message ++ "\n") }, none)
  | LogStrategy.JSONLogger =>
      let p := w.now
      let log_entry : Entry := { timestamp := p.1.isoformat, message := message }
      let w := p.2
      match loadedLogs w with
      | Except.error e => (w, some e)
      | Except.ok logs =>
          ({ w with logsJson := some (JsonContent.entries (logs ++ [log_entry])) }, none)

/-- The factory `create_logger` (logger.py:58-68).  It performs no effect:
the world is returned unchanged in every case. -/
def create_logger (log_type : String) (w : World) :
    Except PyError LogStrategy × World :=
  if log_type = "console" then (Except.ok LogStrategy.ConsoleLogger, w)
  else if log_type = "file" then (Except.ok LogStrategy.FileLogger, w)
  else if log_type = "json" then (Except.ok LogStrategy.JSONLogger, w)
  else (Except.error (PyError.valueError ("Unknown logger type: " ++ log_type)), w)

/-- The `Logger` class: one mutable strategy reference (logger.py:74-78). -/
structure Logger where
  strategy : LogStrategy
deriving DecidableEq

/-- `Logger.change_output` (logger.py:80-82): plain reassignment of the
strategy field. -/
def Logger.change_output (l : Logger) (new_strategy : LogStrategy) : Logger :=
  { l with strategy := new_strategy }

/-- The f-string `f"[{timestamp}] {level}: {message}"` of logger.py:87. -/
def formatLine (dt : DateTime) (level message : String) : String :=
  "[" ++ dt.strftimeYmdHMS ++ "] " ++ level ++ ": " ++ message

/-- `Logger.log` (logger.py:84-88): one clock read, format, one `write` on
the current strategy. -/
def Logger.log (l : Logger) (level message : String) (w : World) :
    World × Option PyError :=
  let p := w.now
  let formatted_message := formatLine p.1 level message
  l.strategy.write formatted_message p.2

/-- `Logger.info` (logger.py:91-92). -/
def Logger.info (l : Logger) (message : String) (w : World) :
    World × Option PyError :=
  l.log "INFO" message w

/-- `Logger.error` (logger.py:94-95). -/
def Logger.error (l : Logger) (message : String) (w : World) :
    World × Option PyError :=
  l.log "ERROR" message w

/-- `Logger.warning` (logger.py:97-98). -/
def Logger.warning (l : Logger) (message : String) (w : World) :
    World × Option PyError :=
  l.log "WARNING" message w

/-- A caller issuing a sequence of `log` calls on one logger, stopping at the
first propagated exception (as a Python caller would). -/
def runLogs (l : Logger) (calls : List (String × String)) (w : World) :
    World × Option PyError :=
  match calls with
  | [] => (w, none)
  | c :: rest =>
      match l.log c.1 c.2 w with
      | (w1, none) => runLogs l rest w1
      | (w1, some e) => (w1, some e)

/-- The structured entries appended by successive JSON-backend `log` calls
starting at clock tick `t`: call `i` reads the clock at tick `t + 2*i` for
the formatted line and at tick `t + 2*i + 1` for the entry's timestamp. -/
def mkEntries (clock : Nat → DateTime) (t : Nat) :
    List (String × String) → List Entry
  | [] => []
  | c :: rest =>
      { timestamp := (clock (t + 1)).isoformat,
        message := formatLine (clock t) c.1 c.2 } :: mkEntries clock (t + 2) rest

/-- The text appended to `app.log` by successive file-backend `log` calls
starting at clock tick `t`: one formatted line plus a newline per call. -/
def mkFileLines (clock : Nat → DateTime) (t : Nat) :
    List (String × String) → String
  | [] => ""
  | c :: rest => formatLine (clock t) c.1 c.2 ++ "\n" ++ mkFileLines clock (t + 1) rest

/-- Whether a character list matches the regex core
`\d{4}-\d{2}-\d{2} \d{2}:\d{2}:\d{2}`. -/
def isTsPattern (cs : List Char) : Bool :=
  match cs with
  | [y1, y2, y3, y4, a, m1, m2, b, d1, d2, c, h1, h2, d, n1, n2, e, s1, s2] =>
      y1.isDigit && y2.isDigit && y3.isDigit && y4.isDigit &&
      m1.isDigit && m2.isDigit && d1.isDigit && d2.isDigit &&
      h1.isDigit && h2.isDigit && n1.isDigit && n2.isDigit &&
      s1.isDigit && s2.isDigit &&
      a == '-' && b == '-' && c == ' ' && d == ':' && e == ':'
  | _ => false

/-- Whether `text` matches the anchored pattern
`\[\d{4}-\d{2}-\d{2} \d{2}:\d{2}:\d{2}\] level: message`. -/
def matchesLogPattern (text level message : String) : Bool :=
  match text.data with
  | '[' :: rest =>
      isTsPattern (rest.take 19) &&
      rest.drop 19 == ("] " ++ level ++ ": " ++ message).data
  | _ => false

/-- A concrete clock stream for concrete evaluations: the second field
advances with the tick. -/
def clock0 : Nat → DateTime := fun t => ⟨2024, 5, 17, 12, 0, t % 60, 123456⟩

/-- A concrete starting world: fresh clock, no files, nothing written. -/
def w0 : World :=
  { clock := clock0, tick := 0, stdout := [], appLog := none,
    logsJson := none, trace := [] }



theorem digitChar_isDigit (n : Nat) : (digitChar n).isDigit = true := by
  unfold digitChar
  have hk : n % 10 < 10 := Nat.mod_lt _ (by norm_num)
  revert hk
  generalize n % 10 = k
  intro hk
  interval_cases k <;> decide

theorem formatLine_matches (dt : DateTime) (level message : String) :
    matchesLogPattern (formatLine dt level message) level message = true := by
  simp [formatLine, matchesLogPattern, DateTime.strftimeYmdHMS, pad4, pad2,
    isTsPattern, digitChar_isDigit, String.data_append]

theorem write_trace (s : LogStrategy) (message : String) (w : World) :
    (LogStrategy.write s message w).1.trace = w.trace ++ [(s, message)] := by
  cases s
  · rfl
  · rfl
  · rcases hw : w.logsJson with _ | jc
    · simp [LogStrategy.write, World.now, loadedLogs, hw]
    · cases jc <;> simp [LogStrategy.write, World.now, loadedLogs, hw]

theorem log_json_step (level message : String) (w : World) (logs : List Entry)
    (h : loadedLogs w = Except.ok logs) :
    Logger.log ⟨LogStrategy.JSONLogger⟩ level message w =
      ({ w with
          tick := w.tick + 2,
          trace := w.trace ++
            [(LogStrategy.JSONLogger, formatLine (w.clock w.tick) level message)],
          logsJson := some (JsonContent.entries (logs ++
            [⟨(w.clock (w.tick + 1)).isoformat,
              formatLine (w.clock w.tick) level message⟩])) },
       none) := by
  rcases hw : w.logsJson with _ | jc
  · rw [loadedLogs] at h
    rw [hw] at h
    simp at h
    subst h
    simp [Logger.log, LogStrategy.write, World.now, loadedLogs, hw]
  · cases jc with
    | entries ls =>
        rw [loadedLogs] at h
        rw [hw] at h
        simp at h
        subst h
        simp [Logger.log, LogStrategy.write, World.now, loadedLogs, hw]
    | malformed =>
        rw [loadedLogs] at h
        rw [hw] at h
        simp at h

theorem runLogs_json_aux (cs : List (String × String)) (w : World)
    (logs : List Entry) (h : w.logsJson = some (JsonContent.entries logs)) :
    (runLogs ⟨LogStrategy.JSONLogger⟩ cs w).2 = none ∧
    (runLogs ⟨LogStrategy.JSONLogger⟩ cs w).1.logsJson =
      some (JsonContent.entries (logs ++ mkEntries w.clock w.tick cs)) ∧
    (runLogs ⟨LogStrategy.JSONLogger⟩ cs w).1.clock = w.clock ∧
    (runLogs ⟨LogStrategy.JSONLogger⟩ cs w).1.tick = w.tick + 2 * cs.length := by
  induction cs generalizing w logs with
  | nil => simp [runLogs, mkEntries, h]
  | cons c rest ih =>
      have hload : loadedLogs w = Except.ok logs := by
        rw [loadedLogs, h]
      have hstep := log_json_step c.1 c.2 w logs hload
      have := ih { w with
          tick := w.tick + 2,
          trace := w.trace ++
            [(LogStrategy.JSONLogger, formatLine (w.clock w.tick) c.1 c.2)],
          logsJson := some (JsonContent.entries (logs ++
            [⟨(w.clock (w.tick + 1)).isoformat,
              formatLine (w.clock w.tick) c.1 c.2⟩])) }
        (logs ++ [⟨(w.clock (w.tick + 1)).isoformat,
              formatLine (w.clock w.tick) c.1 c.2⟩]) rfl
      rw [runLogs, hstep]
      simp only [] at this ⊢
      refine ⟨this.1, ?_, this.2.2.1, ?_⟩
      · rw [this.2.1]
        simp [mkEntries, Nat.add_assoc]
      · rw [this.2.2.2]
        simp [List.length_cons]
        ring

theorem log_file_step (level message : String) (w : World) :
    Logger.log ⟨LogStrategy.FileLogger⟩ level message w =
      ({ w with
          tick := w.tick + 1,
          trace := w.trace ++
            [(LogStrategy.FileLogger, formatLine (w.clock w.tick) level message)],
          appLog := some (w.appLog.getD "" ++
            formatLine (w.clock w.tick) level message ++ "\n") },
       none) := by
  simp [Logger.log, LogStrategy.write, World.now]

theorem runLogs_file_aux (cs : List (String × String)) (w : World) (s : String)
    (h : w.appLog = some s) :
    (runLogs ⟨LogStrategy.FileLogger⟩ cs w).2 = none ∧
    (runLogs ⟨LogStrategy.FileLogger⟩ cs w).1.appLog =
      some (s ++ mkFileLines w.clock w.tick cs) ∧
    (runLogs ⟨LogStrategy.FileLogger⟩ cs w).1.clock = w.clock ∧
    (runLogs ⟨LogStrategy.FileLogger⟩ cs w).1.tick = w.tick + cs.length := by
  induction cs generalizing w s with
  | nil => simp [runLogs, mkFileLines, h]
  | cons c rest ih =>
      have hstep := log_file_step c.1 c.2 w
      have := ih { w with
          tick := w.tick + 1,
          trace := w.trace ++
            [(LogStrategy.FileLogger, formatLine (w.clock w.tick) c.1 c.2)],
          appLog := some (w.appLog.getD "" ++
            formatLine (w.clock w.tick) c.1 c.2 ++ "\n") }
        (w.appLog.getD "" ++ formatLine (w.clock w.tick) c.1 c.2 ++ "\n") rfl
      rw [runLogs, hstep]
      simp only [] at this ⊢
      refine ⟨this.1, ?_, this.2.2.1, ?_⟩
      · rw [this.2.1]
        simp [mkFileLines, h, Nat.add_assoc, String.append_assoc]
      · rw [this.2.2.2]
        simp [List.length_cons]
        ring

theorem mkEntries_length (clock : Nat → DateTime) (t : Nat)
    (cs : List (String × String)) :
    (mkEntries clock t cs).length = cs.length := by
  induction cs generalizing t with
  | nil => rfl
  | cons c rest ih => simp [mkEntries, ih]

theorem mkEntries_getElem (clock : Nat → DateTime) (t : Nat)
    (cs : List (String × String)) (i : Nat) (c : String × String)
    (h : cs[i]? = some c) :
    (mkEntries clock t cs)[i]? =
      some ⟨(clock (t + 2 * i + 1)).isoformat,
            formatLine (clock (t + 2 * i)) c.1 c.2⟩ := by
  induction cs generalizing t i with
  | nil => simp at h
  | cons hd rest ih =>
      cases i with
      | zero =>
          simp at h
          subst h
          simp [mkEntries]
      | succ j =>
          simp at h
          have := ih (t + 2) j h
          simp [mkEntries]
          rw [this]
          ring_nf

theorem runLogs_json_aux2 (cs : List (String × String)) (w : World)
    (logs : List Entry) (h : w.logsJson = some (JsonContent.entries logs)) :
    (runLogs ⟨LogStrategy.JSONLogger⟩ cs w).2 = none ∧
    (runLogs ⟨LogStrategy.JSONLogger⟩ cs w).1.logsJson =
      some (JsonContent.entries (logs ++ mkEntries w.clock w.tick cs)) :=
  ⟨(runLogs_json_aux cs w logs h).1, (runLogs_json_aux cs w logs h).2.1⟩

/-- C1: one `Logger.log(level, message)` call performs exactly one `write` on
the active backend — the write trace grows by exactly that one invocation —
and the text handed to `write` is the formatted line, which matches
the pattern `\[\d{4}-\d{2}-\d{2} \d{2}:\d{2}:\d{2}\] level: message`. -/
theorem log_single_write_pattern (l : Logger) (level message : String) (w : World) :
    (Logger.log l level message w).1.trace =
      w.trace ++ [(l.strategy, formatLine (w.clock w.tick) level message)] ∧
    matchesLogPattern (formatLine (w.clock w.tick) level message) level message
      = true := by
  constructor
  · have := write_trace l.strategy (formatLine (w.clock w.tick) level message)
      { w with tick := w.tick + 1 }
    simpa [Logger.log, World.now] using this
  · exact formatLine_matches _ _ _

/-- C2: the factory returns the matching backend variant for each recognized
name and leaves the world untouched (no side effects at construction). -/
theorem create_logger_recognized (w : World) :
    create_logger "console" w = (Except.ok LogStrategy.ConsoleLogger, w) ∧
    create_logger "file" w = (Except.ok LogStrategy.FileLogger, w) ∧
    create_logger "json" w = (Except.ok LogStrategy.JSONLogger, w) := by
  refine ⟨?_, ?_, ?_⟩ <;> rfl

/-- C3: on any unrecognized name the factory fails with a `ValueError`
carrying the offending name, constructs no backend, and leaves the world
untouched (no file writes). -/
theorem create_logger_unknown (log_type : String) (w : World)
    (h1 : log_type ≠ "console") (h2 : log_type ≠ "file") (h3 : log_type ≠ "json") :
    create_logger log_type w =
      (Except.error (PyError.valueError ("Unknown logger type: " ++ log_type)), w) := by
  simp [create_logger, h1, h2, h3]

theorem create_logger_unknown_witness :
    create_logger "bogus" w0 =
      (Except.error (PyError.valueError ("Unknown logger type: " ++ "bogus")), w0) :=
  create_logger_unknown "bogus" w0 (by decide) (by decide) (by decide)

/-- C8: `info`, `warning` and `error` are pure delegation to `log` with the
matching level token. -/
theorem level_helpers_delegate (l : Logger) (message : String) (w : World) :
    Logger.info l message w = Logger.log l "INFO" message w ∧
    Logger.warning l message w = Logger.log l "WARNING" message w ∧
    Logger.error l message w = Logger.log l "ERROR" message w :=
  ⟨rfl, rfl, rfl⟩

/-- C7: `change_output B` replaces exactly the strategy reference, and every
subsequent `log` call performs its single write on `B` (the sole new trace
entry names `B`), leaving everything already written untouched. -/
theorem change_output_redirects (l : Logger) (B : LogStrategy)
    (level message : String) (w : World) :
    Logger.change_output l B = ⟨B⟩ ∧
    ((Logger.change_output l B).log level message w).1.trace =
      w.trace ++ [(B, formatLine (w.clock w.tick) level message)] := by
  constructor
  · rfl
  · have := write_trace B (formatLine (w.clock w.tick) level message)
      { w with tick := w.tick + 1 }
    simpa [Logger.log, Logger.change_output, World.now] using this

/-- C4: from an absent structured-log file, N (at least one) json-backend log
calls leave `logs.json` holding exactly the N entries of `mkEntries`, in call
order, with no error; `mkEntries` has one entry per call whose `message` is
the formatted line of the corresponding call; and one further write from any
existing valid array appends exactly one entry, preserving all prior entries
unchanged and in order (append-only read-modify-write). -/
theorem json_backend_append_only :
    (∀ (w : World) (c : String × String) (cs : List (String × String)),
      w.logsJson = none →
      (runLogs ⟨LogStrategy.JSONLogger⟩ (c :: cs) w).2 = none ∧
      (runLogs ⟨LogStrategy.JSONLogger⟩ (c :: cs) w).1.logsJson =
        some (JsonContent.entries (mkEntries w.clock w.tick (c :: cs)))) ∧
    (∀ (clock : Nat → DateTime) (t : Nat) (cs : List (String × String)),
      (mkEntries clock t cs).length = cs.length) ∧
    (∀ (clock : Nat → DateTime) (t : Nat) (cs : List (String × String))
        (i : Nat) (c : String × String), cs[i]? = some c →
      (mkEntries clock t cs)[i]? =
        some ⟨(clock (t + 2 * i + 1)).isoformat,
              formatLine (clock (t + 2 * i)) c.1 c.2⟩) ∧
    (∀ (w : World) (logs : List Entry) (level message : String),
      w.logsJson = some (JsonContent.entries logs) →
      (Logger.log ⟨LogStrategy.JSONLogger⟩ level message w).2 = none ∧
      (Logger.log ⟨LogStrategy.JSONLogger⟩ level message w).1.logsJson =
        some (JsonContent.entries (logs ++
          [⟨(w.clock (w.tick + 1)).isoformat,
            formatLine (w.clock w.tick) level message⟩]))) := by
  refine ⟨?_, mkEntries_length, mkEntries_getElem, ?_⟩
  · intro w c cs hnone
    have hload : loadedLogs w = Except.ok [] := by simp [loadedLogs, hnone]
    have hstep := log_json_step c.1 c.2 w [] hload
    have haux := runLogs_json_aux2 cs
      ({ w with
          tick := w.tick + 2,
          trace := w.trace ++
            [(LogStrategy.JSONLogger, formatLine (w.clock w.tick) c.1 c.2)],
          logsJson := some (JsonContent.entries ([] ++
            [⟨(w.clock (w.tick + 1)).isoformat,
              formatLine (w.clock w.tick) c.1 c.2⟩])) })
      ([] ++ [⟨(w.clock (w.tick + 1)).isoformat,
              formatLine (w.clock w.tick) c.1 c.2⟩]) rfl
    rw [runLogs, hstep]
    simp only [] at haux ⊢
    refine ⟨haux.1, ?_⟩
    rw [haux.2]
    simp [mkEntries]
  · intro w logs level message h
    have hload : loadedLogs w = Except.ok logs := by simp [loadedLogs, h]
    rw [log_json_step level message w logs hload]
    simp

/-- C5: the json backend's load step falls back to an empty array exactly on
an absent file: an absent file yields the empty list and a successful write
of a one-entry array; an existing parseable file yields its own entries as
the starting array (not the fallback); and an existing file with malformed
content is not caught — the error propagates out of `write` and out of the
logging call. -/
theorem json_load_fallback :
    (∀ (w : World) (message : String), w.logsJson = none →
      loadedLogs w = Except.ok [] ∧
      LogStrategy.write LogStrategy.JSONLogger message w =
        ({ w with
            tick := w.tick + 1,
            trace := w.trace ++ [(LogStrategy.JSONLogger, message)],
            logsJson := some (JsonContent.entries
              [⟨(w.clock w.tick).isoformat, message⟩]) }, none)) ∧
    (∀ (w : World) (logs : List Entry) (message : String),
      w.logsJson = some (JsonContent.entries logs) →
      loadedLogs w = Except.ok logs ∧
      (LogStrategy.write LogStrategy.JSONLogger message w).1.logsJson =
        some (JsonContent.entries (logs ++
          [⟨(w.clock w.tick).isoformat, message⟩]))) ∧
    (∀ (w : World) (level message : String),
      w.logsJson = some JsonContent.malformed →
      loadedLogs w = Except.error PyError.jsonDecodeError ∧
      (LogStrategy.write LogStrategy.JSONLogger message w).2 =
        some PyError.jsonDecodeError ∧
      (Logger.log ⟨LogStrategy.JSONLogger⟩ level message w).2 =
        some PyError.jsonDecodeError) := by
  refine ⟨?_, ?_, ?_⟩
  · intro w message h
    refine ⟨by simp [loadedLogs, h], ?_⟩
    simp [LogStrategy.write, World.now, loadedLogs, h]
  · intro w logs message h
    refine ⟨by simp [loadedLogs, h], ?_⟩
    simp [LogStrategy.write, World.now, loadedLogs, h]
  · intro w level message h
    refine ⟨by simp [loadedLogs, h], ?_, ?_⟩ <;>
      simp [Logger.log, LogStrategy.write, World.now, loadedLogs, h]

/-- C6: N file-backend log calls append exactly the N formatted lines (each
with a trailing newline) to `app.log` in call order, preserving any
pre-existing content; a single call performs one append cycle of its own,
creating the file when absent (`getD ""`); and `mkFileLines` is one line plus
newline per call. -/
theorem file_backend_appends :
    (∀ (w : World) (s : String) (cs : List (String × String)),
      w.appLog = some s →
      (runLogs ⟨LogStrategy.FileLogger⟩ cs w).2 = none ∧
      (runLogs ⟨LogStrategy.FileLogger⟩ cs w).1.appLog =
        some (s ++ mkFileLines w.clock w.tick cs)) ∧
    (∀ (w : World) (level message : String),
      Logger.log ⟨LogStrategy.FileLogger⟩ level message w =
        ({ w with
            tick := w.tick + 1,
            trace := w.trace ++
              [(LogStrategy.FileLogger, formatLine (w.clock w.tick) level message)],
            appLog := some (w.appLog.getD "" ++
              formatLine (w.clock w.tick) level message ++ "\n") }, none)) ∧
    (∀ (clock : Nat → DateTime) (t : Nat) (c : String × String)
        (rest : List (String × String)),
      mkFileLines clock t (c :: rest) =
        formatLine (clock t) c.1 c.2 ++ "\n" ++ mkFileLines clock (t + 1) rest) ∧
    (∀ (clock : Nat → DateTime) (t : Nat), mkFileLines clock t [] = "") := by
  refine ⟨?_, fun w level message => log_file_step level message w, fun _ _ _ _ => rfl, fun _ _ => rfl⟩
  intro w s cs h
  exact ⟨(runLogs_file_aux cs w s h).1, (runLogs_file_aux cs w s h).2.1⟩

/-- C9: when the structured-log file exists with malformed content, the json
backend's `write` raises during the load step and leaves both destination
files completely unchanged — the error precedes any opening of the file for
writing, so no truncation or partial rewrite occurs. -/
theorem json_load_failure_preserves_file (w : World) (level message : String)
    (h : w.logsJson = some JsonContent.malformed) :
    (LogStrategy.write LogStrategy.JSONLogger message w).1.logsJson = w.logsJson ∧
    (LogStrategy.write LogStrategy.JSONLogger message w).1.appLog = w.appLog ∧
    (LogStrategy.write LogStrategy.JSONLogger message w).2 =
      some PyError.jsonDecodeError ∧
    (Logger.log ⟨LogStrategy.JSONLogger⟩ level message w).1.logsJson = w.logsJson := by
  refine ⟨?_, ?_, ?_, ?_⟩ <;>
    simp [Logger.log, LogStrategy.write, World.now, loadedLogs, h]

theorem json_load_failure_witness :
    (LogStrategy.write LogStrategy.JSONLogger "x"
        { w0 with logsJson := some JsonContent.malformed }).1.logsJson =
      ({ w0 with logsJson := some JsonContent.malformed } : World).logsJson ∧
    (LogStrategy.write LogStrategy.JSONLogger "x"
        { w0 with logsJson := some JsonContent.malformed }).1.appLog =
      ({ w0 with logsJson := some JsonContent.malformed } : World).appLog ∧
    (LogStrategy.write LogStrategy.JSONLogger "x"
        { w0 with logsJson := some JsonContent.malformed }).2 =
      some PyError.jsonDecodeError ∧
    (Logger.log ⟨LogStrategy.JSONLogger⟩ "INFO" "x"
        { w0 with logsJson := some JsonContent.malformed }).1.logsJson =
      ({ w0 with logsJson := some JsonContent.malformed } : World).logsJson :=
  json_load_failure_preserves_file
    { w0 with logsJson := some JsonContent.malformed } "INFO" "x" rfl

/-- C10: the structured entry's `timestamp` comes from a second clock read
inside the backend's `write` (tick + 1), independent of the first read (tick)
embedded in the formatted message; the two formats differ (space versus `T`
at index 10, so no strftime line equals any isoformat string there), and on a
clock that advances between reads the two captured times differ. -/
theorem json_timestamp_second_clock_read :
    (∀ (w : World) (logs : List Entry) (level message : String),
      loadedLogs w = Except.ok logs →
      (Logger.log ⟨LogStrategy.JSONLogger⟩ level message w).1.logsJson =
        some (JsonContent.entries (logs ++
          [⟨(w.clock (w.tick + 1)).isoformat,
            formatLine (w.clock w.tick) level message⟩]))) ∧
    (∀ dt : DateTime, (dt.strftimeYmdHMS.data)[10]? = some ' ' ∧
      (dt.isoformat.data)[10]? = some 'T') ∧
    DateTime.isoformat (clock0 1) ≠ DateTime.isoformat (clock0 0) := by
  refine ⟨?_, ?_, by decide⟩
  · intro w logs level message h
    rw [log_json_step level message w logs h]
  · intro dt
    exact ⟨rfl, rfl⟩

end LoggerPy
